import Mathlib

/-!
Verification development for a single-table session/event tracking engine.

The source program stores two kinds of items in one key-value table:
session metadata items (partition key `SESSION#<id>`, constant sort key
`#METADATA`) and event items (same partition key, sort key
`EVENT#<iso-timestamp>#<eventId>`).  A range query over one partition
returns items in ascending sort-key order.

Embedding conventions:
* The store is a plain list of items; `putItem` is an upsert (it removes
  any item with the same key and appends the new one), and queries
  filter and then sort by sort key, which models the ascending sort-key
  order the physical store maintains.
* Sort keys are embedded structurally (`SortKey.metadata` versus
  `SortKey.event ts eid`) with an order that agrees with the byte-wise
  lexicographic order of the rendered key strings for the key shapes the
  program writes: the metadata sentinel starts with the byte 0x23 and
  event keys with 0x45, so metadata sorts first, and ISO-8601 timestamps
  of the fixed format used by the program are equal-length strings made
  of bytes above 0x23, so comparing the timestamp component first and
  the event id second agrees with comparing the flat strings.
* Wall-clock reads and uuid generation are nondeterministic in the
  source, so every operation that calls them takes the produced
  timestamp or id as an explicit argument.
* Caller-opaque JSON payloads (session `metadata`, event `eventData`)
  are never interpreted by the engine and are embedded as association
  lists of strings.
* JavaScript exceptions are embedded with `Except`; every state-passing
  operation returns the store it leaves behind, so a thrown error
  returns the store unchanged.
-/

/-- Caller-opaque JSON object payload (session metadata / event data). -/
abbrev JsObj := List (String × String)

/-- The table store is a list of items (defined below as `Item`). -/
inductive SortKey where
  | metadata
  | event (timestamp : String) (eventId : String)
deriving DecidableEq, Repr

/-- Byte-wise lexicographic order on character lists (the order the
physical store applies to sort keys). -/
def strLtB : List Char → List Char → Bool
  | [], [] => false
  | [], _ :: _ => true
  | _ :: _, [] => false
  | a :: as, b :: bs =>
      if a.toNat < b.toNat then true
      else if b.toNat < a.toNat then false
      else strLtB as bs

/-- Byte-wise lexicographic strict order on strings. -/
def strLt (a b : String) : Prop := strLtB a.data b.data = true

instance instDecidableRelStrLt : DecidableRel strLt := fun a b =>
  inferInstanceAs (Decidable (strLtB a.data b.data = true))

/-- True for event sort keys, i.e. the keys matched by the
`begins_with(SK, EVENT#)` range condition. -/
def SortKey.isEvent : SortKey → Bool
  | .metadata => false
  | .event _ _ => true

/-- Order on sort keys: agrees with the lexicographic byte order of the
rendered `#METADATA` / `EVENT#<ts>#<id>` strings for the fixed-width
ISO timestamps the program writes. -/
def SortKey.le : SortKey → SortKey → Prop
  | .metadata, _ => True
  | .event _ _, .metadata => False
  | .event t1 e1, .event t2 e2 => strLt t1 t2 ∨ (t1 = t2 ∧ ¬ strLt e2 e1)

instance : DecidableRel SortKey.le := fun a b =>
  match a, b with
  | .metadata, _ => .isTrue trivial
  | .event _ _, .metadata => .isFalse (fun h => h)
  | .event t1 e1, .event t2 e2 =>
      @instDecidableOr _ _ (instDecidableRelStrLt t1 t2)
        (@instDecidableAnd _ _ (String.decEq t1 t2)
          (@instDecidableNot _ (instDecidableRelStrLt e2 e1)))

/-- One physical item of the single table.  Fields a given item kind does
not carry are `none` (JavaScript `undefined`/`null` on attributes that
the document client strips or that were stored as null). -/
structure Item where
  PK : String
  SK : SortKey
  itemType : String
  sessionId : Option String := none
  externalId : Option String := none
  userAgent : Option String := none
  ipAddress : Option String := none
  status : Option String := none
  stepsTaken : Option Int := none
  createdAt : Option String := none
  updatedAt : Option String := none
  metadata : Option JsObj := none
  eventId : Option String := none
  eventType : Option String := none
  eventData : Option JsObj := none
  timestamp : Option String := none
  GSI1PK : Option String := none
  GSI1SK : Option String := none
deriving DecidableEq, Repr

abbrev Store := List Item

/-- JavaScript `x || null` on an optional string: the empty string is
falsy and collapses to null. -/
def truthyStr : Option String → Option String
  | none => none
  | some s => if s = "" then none else some s

/-- JavaScript template-literal rendering of a possibly-null string:
`null` interpolates as the text "null". -/
def jsStr : Option String → String
  | none => "null"
  | some s => s

namespace Db

/-- `putItem`: DynamoDB upsert.  Any existing item with the same
partition and sort key is replaced. -/
def putItem (item : Item) (s : Store) : Item × Store :=
  (item, s.filter (fun it => decide (¬(it.PK = item.PK ∧ it.SK = item.SK))) ++ [item])

/-- `getItem`: exact-key lookup, `null` when absent. -/
def getItem (pk : String) (sk : SortKey) (s : Store) : Option Item :=
  s.find? (fun it => decide (it.PK = pk ∧ it.SK = sk))

/-- Order of items in a partition range query: ascending sort key. -/
def itemLe (a b : Item) : Prop := SortKey.le a.SK b.SK

instance : DecidableRel itemLe := fun a b =>
  inferInstanceAs (Decidable (SortKey.le a.SK b.SK))

/-- Query with condition `PK = :pk`: every item of one partition, in
ascending sort-key order. -/
def queryByPk (pk : String) (s : Store) : List Item :=
  List.insertionSort itemLe (s.filter (fun it => decide (it.PK = pk)))

/-- Query with condition `PK = :pk AND begins_with(SK, EVENT#)`: the
event items of one partition, in ascending sort-key order. -/
def queryEventsByPk (pk : String) (s : Store) : List Item :=
  List.insertionSort itemLe (s.filter (fun it => decide (it.PK = pk) && it.SK.isEvent))

/-- Order of items in a GSI1 range query: ascending GSI1 sort key. -/
def gsiLe (a b : Item) : Prop := ¬ strLt (b.GSI1SK.getD "") (a.GSI1SK.getD "")

instance : DecidableRel gsiLe := fun a b =>
  @instDecidableNot _ (instDecidableRelStrLt (b.GSI1SK.getD "") (a.GSI1SK.getD ""))

/-- Query on the GSI1 index with condition `GSI1PK = :gsi1pk`.  Only
items carrying the index attributes appear.  A `Limit` is attached only
when the limit value is truthy (nonzero). -/
def queryGsi (gpk : String) (limit : Nat) (s : Store) : List Item :=
  let hits := List.insertionSort gsiLe (s.filter (fun it => decide (it.GSI1PK = some gpk)))
  if limit = 0 then hits else hits.take limit

/-- `deleteItem`: removes the item with the given key, if present. -/
def deleteItem (pk : String) (sk : SortKey) (s : Store) : Store :=
  s.filter (fun it => decide (¬(it.PK = pk ∧ it.SK = sk)))

end Db

/-- Error taxonomy of the shared `errors.js` module (the two kinds the
verified paths raise). -/
inductive Err where
  | validation (message : String) (field : Option String)
  | notFound (message : String) (resource : Option String)
deriving DecidableEq, Repr

def Err.isValidation : Err → Bool
  | .validation _ _ => true
  | _ => false

def Err.isNotFound : Err → Bool
  | .notFound _ _ => true
  | _ => false

def Err.message : Err → String
  | .validation m _ => m
  | .notFound m _ => m

/-- The fixed event-type enumeration of `validator.js`. -/
def allowedEventTypes : List String :=
  ["landing", "click", "form_submit", "form_start", "quiz_start",
   "quiz_complete", "product_view", "add_to_cart", "checkout_start",
   "checkout_complete", "page_view", "video_play", "video_complete",
   "download", "signup", "login", "custom"]

/-- `validateEventType`: required, then membership in the fixed
enumeration.  A missing or empty value fails the required check. -/
def validateEventType (eventType : String) : Except Err Unit :=
  if eventType = "" then
    .error (.validation "eventType is required" (some "eventType"))
  else if allowedEventTypes.contains eventType then
    .ok ()
  else
    .error (.validation
      ("eventType must be one of: " ++ String.intercalate ", " allowedEventTypes)
      (some "eventType"))

/-- `validateSessionId`: required non-empty string. -/
def validateSessionId (sessionId : String) : Except Err Unit :=
  if sessionId = "" then
    .error (.validation "sessionId is required" (some "sessionId"))
  else
    .ok ()

namespace EventRepo

/-- Input to `trackEvent`/`createEvent` (the destructured request). -/
structure EventInput where
  sessionId : String
  eventType : String
  eventData : Option JsObj
  userAgent : Option String
  ipAddress : Option String

/-- `eventRepository.createEvent`: builds the event item and upserts it.
The uuid and the `new Date().toISOString()` instant are passed in as
`eid` and `ts` (both are generated nondeterministically in the source).
`eventData || {}` keeps any object (even empty) and replaces only a
null/undefined payload. -/
def createEvent (inp : EventInput) (ts eid : String) (s : Store) : Item × Store :=
  let event : Item := {
    PK := "SESSION#" ++ inp.sessionId
    SK := .event ts eid
    itemType := "EVENT"
    eventId := some eid
    sessionId := some inp.sessionId
    eventType := some inp.eventType
    eventData := some (inp.eventData.getD [])
    userAgent := inp.userAgent
    ipAddress := inp.ipAddress
    timestamp := some ts
    createdAt := some ts }
  Db.putItem event s

/-- `eventRepository.getEvent`: exact key lookup, the timestamp is part
of the identity. -/
def getEvent (sessionId eid ts : String) (s : Store) : Option Item :=
  Db.getItem ("SESSION#" ++ sessionId) (.event ts eid) s

/-- `eventRepository.getSessionEvents`: prefix range query over the
event sort-key namespace of one session. -/
def getSessionEvents (sessionId : String) (s : Store) : List Item :=
  Db.queryEventsByPk ("SESSION#" ++ sessionId) s

/-- `eventRepository.deleteEvent`. -/
def deleteEvent (sessionId eid ts : String) (s : Store) : Store :=
  Db.deleteItem ("SESSION#" ++ sessionId) (.event ts eid) s

end EventRepo

namespace SessionRepo

/-- The `sessionData` record `sessionService.createSession` passes to
the repository. -/
structure SessionData where
  sessionId : Option String
  externalId : Option String
  userAgent : Option String
  ipAddress : Option String
  status : Option String
  stepsTaken : Option Int
  metadata : Option JsObj

/-- `sessionRepository.getSession`: metadata item by exact key. -/
def getSession (sessionId : String) (s : Store) : Option Item :=
  Db.getItem ("SESSION#" ++ sessionId) .metadata s

/-- `sessionRepository.createSession`: builds the metadata item
(`PK = SESSION#<id>` with the id rendered by a template literal, so a
null id yields the literal partition key `SESSION#null`), applies the
JavaScript `|| default` fallbacks, attaches the GSI1 keys only when
`externalId` is truthy, and upserts. -/
def createSession (d : SessionData) (now : String) (s : Store) : Item × Store :=
  let base : Item := {
    PK := "SESSION#" ++ jsStr d.sessionId
    SK := .metadata
    itemType := "SESSION_METADATA"
    sessionId := d.sessionId
    externalId := truthyStr d.externalId
    userAgent := truthyStr d.userAgent
    ipAddress := truthyStr d.ipAddress
    status := some ((truthyStr d.status).getD "active")
    stepsTaken := some (d.stepsTaken.getD 0)
    createdAt := some now
    updatedAt := some now
    metadata := some (d.metadata.getD []) }
  let item :=
    if (truthyStr d.externalId).isSome then
      { base with
        GSI1PK := some ("USER#" ++ (truthyStr d.externalId).getD "")
        GSI1SK := some ("SESSION#" ++ now) }
    else base
  Db.putItem item s

/-- A field-set passed to `sessionRepository.updateSession`.  An outer
`some` means the field is present in the JavaScript update object (its
inner value may itself be null); `none` means absent.  These are the
fields the program ever passes to the repository update. -/
structure FieldUpdates where
  externalId : Option (Option String) := none
  status : Option (Option String) := none
  metadata : Option (Option JsObj) := none
  stepsTaken : Option (Option Int) := none
  updatedAt : Option (Option String) := none
deriving Repr

/-- The object spread `{ ...existing, ...updates }`: every field present
in the update overwrites the stored one. -/
def applyFieldUpdates (it : Item) (u : FieldUpdates) : Item :=
  { it with
    externalId := u.externalId.getD it.externalId
    status := u.status.getD it.status
    metadata := u.metadata.getD it.metadata
    stepsTaken := u.stepsTaken.getD it.stepsTaken
    updatedAt := u.updatedAt.getD it.updatedAt }

/-- `sessionRepository.updateSession`: read-modify-write.  Loads the
existing metadata item (returning null if absent), spreads the updates
over it, stamps `updatedAt` last (so it wins over any updatedAt present
in the update object), and writes the merged item back. -/
def updateSession (sessionId : String) (u : FieldUpdates) (now : String) (s : Store) :
    Option Item × Store :=
  match getSession sessionId s with
  | none => (none, s)
  | some existing =>
      let updated := { applyFieldUpdates existing u with updatedAt := some now }
      let (it, s1) := Db.putItem updated s
      (some it, s1)

/-- `sessionRepository.getSessionsByExternalId`: GSI1 range query. -/
def getSessionsByExternalId (externalId : String) (limit : Nat) (s : Store) : List Item :=
  Db.queryGsi ("USER#" ++ externalId) limit s

/-- `sessionRepository.deleteSession`: enumerates every item of the
partition with one query, deletes each enumerated item, and returns the
number of items the query produced. -/
def deleteSession (sessionId : String) (s : Store) : Nat × Store :=
  let items := Db.queryByPk ("SESSION#" ++ sessionId) s
  let s1 := items.foldl (fun st it => Db.deleteItem it.PK it.SK st) s
  (items.length, s1)

/-- The repository timeline record `{ metadata, events, eventCount }`. -/
structure RepoTimeline where
  metadata : Option Item
  events : List Item
  eventCount : Nat

/-- `sessionRepository.getSessionTimeline`: metadata lookup and event
range query (issued together in the source; both are reads, so the
sequential embedding is equivalent). -/
def getSessionTimeline (sessionId : String) (s : Store) : RepoTimeline :=
  let metadata := getSession sessionId s
  let events := EventRepo.getSessionEvents sessionId s
  { metadata := metadata, events := events, eventCount := events.length }

end SessionRepo

namespace SessionService

/-- The trimmed session object `sessionService.createSession` returns. -/
structure CreateResp where
  sessionId : Option String
  externalId : Option String
  status : Option String
  createdAt : Option String
deriving DecidableEq, Repr

/-- `sessionService.createSession`: despite the comment in the source
saying a session id is generated when absent, the received value is
passed through unchanged.  No validation runs on this path. -/
def createSession (sessionId externalId userAgent ipAddress : Option String)
    (md : Option JsObj) (now : String) (s : Store) : CreateResp × Store :=
  let d : SessionRepo.SessionData := {
    sessionId := sessionId
    externalId := truthyStr externalId
    userAgent := truthyStr userAgent
    ipAddress := truthyStr ipAddress
    status := some "active"
    stepsTaken := some 0
    metadata := some (md.getD []) }
  let (result, s1) := SessionRepo.createSession d now s
  ({ sessionId := result.sessionId, externalId := result.externalId,
     status := result.status, createdAt := result.createdAt }, s1)

/-- A partial-update request body for `sessionService.updateSession`.
An outer `some` marks the field as present in the JavaScript object
(possibly with a null value); `extraFields` are the names of any other
body fields, which the allow-list filter drops. -/
structure UpdateReq where
  externalId : Option (Option String) := none
  status : Option (Option String) := none
  metadata : Option (Option JsObj) := none
  stepsTaken : Option (Option Int) := none
  extraFields : List String := []
deriving Repr

/-- True when at least one allow-listed field is present, i.e. when the
filtered update object of the source is non-empty. -/
def UpdateReq.hasAllowed (u : UpdateReq) : Bool :=
  u.externalId.isSome || u.status.isSome || u.metadata.isSome || u.stepsTaken.isSome

/-- The trimmed session object `sessionService.updateSession` returns. -/
structure UpdateResp where
  sessionId : Option String
  externalId : Option String
  status : Option String
  updatedAt : Option String
deriving DecidableEq, Repr

/-- `sessionService.updateSession`: validates the id, filters the body
down to the allow-list (`externalId`, `status`, `metadata`,
`stepsTaken`), rejects an update with no allow-listed field, and
delegates to the repository read-modify-write; a null repository result
becomes `NotFoundError`. -/
def updateSession (sessionId : String) (u : UpdateReq) (now : String) (s : Store) :
    Except Err UpdateResp × Store :=
  match validateSessionId sessionId with
  | .error e => (.error e, s)
  | .ok _ =>
    if u.hasAllowed then
      let fu : SessionRepo.FieldUpdates := {
        externalId := u.externalId
        status := u.status
        metadata := u.metadata
        stepsTaken := u.stepsTaken }
      match SessionRepo.updateSession sessionId fu now s with
      | (none, s1) =>
          (.error (.notFound ("Session not found: " ++ sessionId) (some "session")), s1)
      | (some it, s1) =>
          (.ok { sessionId := it.sessionId, externalId := it.externalId,
                 status := it.status, updatedAt := it.updatedAt }, s1)
    else
      (.error (.validation "No valid update fields provided" none), s)

/-- The trimmed session view of the timeline response. -/
structure SessionView where
  sessionId : Option String
  externalId : Option String
  status : Option String
  stepsTaken : Option Int
  userAgent : Option String
  createdAt : Option String
  updatedAt : Option String
  metadata : Option JsObj
deriving DecidableEq, Repr

/-- The trimmed event view of the timeline response. -/
structure EventView where
  eventId : Option String
  eventType : Option String
  eventData : Option JsObj
  timestamp : Option String
deriving DecidableEq, Repr

/-- The timeline response `{ session, events, eventCount }`. -/
structure TimelineResp where
  session : SessionView
  events : List EventView
  eventCount : Nat
deriving DecidableEq, Repr

/-- `sessionService.getSessionTimeline`: fails with `NotFoundError`
when the metadata item is absent, regardless of any event items found
by the range query. -/
def getSessionTimeline (sessionId : String) (s : Store) : Except Err TimelineResp :=
  let tl := SessionRepo.getSessionTimeline sessionId s
  match tl.metadata with
  | none => .error (.notFound ("Session not found: " ++ sessionId) (some "session"))
  | some m =>
    .ok {
      session := {
        sessionId := m.sessionId, externalId := m.externalId, status := m.status,
        stepsTaken := m.stepsTaken, userAgent := m.userAgent,
        createdAt := m.createdAt, updatedAt := m.updatedAt, metadata := m.metadata }
      events := tl.events.map (fun e =>
        { eventId := e.eventId, eventType := e.eventType,
          eventData := e.eventData, timestamp := e.timestamp })
      eventCount := tl.eventCount }

/-- `sessionService.deleteSession`: validates the id and delegates to
the repository cascade. -/
def deleteSession (sessionId : String) (s : Store) : Except Err (String × Nat) × Store :=
  match validateSessionId sessionId with
  | .error e => (.error e, s)
  | .ok _ =>
    let (n, s1) := SessionRepo.deleteSession sessionId s
    (.ok (sessionId, n), s1)

/-- `sessionService.incrementSessionSteps`: read-modify-write of the
step counter (`(stepsTaken || 0) + 1`), not atomic in the source. -/
def incrementSessionSteps (sessionId : String) (now : String) (s : Store) :
    Except Err (Option Item) × Store :=
  match validateSessionId sessionId with
  | .error e => (.error e, s)
  | .ok _ =>
    match SessionRepo.getSession sessionId s with
    | none =>
        (.error (.notFound ("Session not found: " ++ sessionId) (some "session")), s)
    | some m =>
      let newStepCount := m.stepsTaken.getD 0 + 1
      let (r, s1) := SessionRepo.updateSession sessionId
        { stepsTaken := some (some newStepCount) } now s
      (.ok r, s1)

/-- The four funnel stages. -/
structure Funnel where
  landed : Bool
  engaged : Bool
  startedCheckout : Bool
  converted : Bool
deriving DecidableEq, Repr

/-- One step of building `eventBreakdown`: JavaScript
`obj[t] = (obj[t] || 0) + 1` bumps the entry in place when the key
already exists (object keys keep insertion order) and appends the key
otherwise. -/
def bumpCount : List (String × Nat) → String → List (String × Nat)
  | [], t => [(t, 1)]
  | (k, n) :: rest, t =>
      if k = t then (k, n + 1) :: rest else (k, n) :: bumpCount rest t

/-- The analytics response.  `duration` is
`Math.round((Date(last) - Date(first)) / 1000)`; ISO-string parsing to
epoch milliseconds is the store-independent `parseMs` parameter of
`getSessionAnalytics`, and round-half-up on an integer millisecond
difference is `(d + 500).fdiv 1000`. -/
structure Analytics where
  sessionId : Option String
  externalId : Option String
  status : Option String
  duration : Int
  eventCount : Nat
  stepsTaken : Option Int
  eventBreakdown : List (String × Nat)
  firstEvent : Option String
  lastEvent : Option String
  conversionFunnel : Funnel
  createdAt : Option String
  updatedAt : Option String
deriving DecidableEq, Repr

/-- `sessionService.getSessionAnalytics`: timeline fetch, then derived
metrics.  The funnel stages are four independent membership tests over
the event types; an event lacking an eventType attribute would be
counted under the JavaScript key rendering "undefined". -/
def getSessionAnalytics (parseMs : String → Int) (sessionId : String) (s : Store) :
    Except Err Analytics :=
  let tl := SessionRepo.getSessionTimeline sessionId s
  match tl.metadata with
  | none => .error (.notFound ("Session not found: " ++ sessionId) (some "session"))
  | some m =>
    let events := tl.events
    let eventBreakdown :=
      events.foldl (fun acc e => bumpCount acc (e.eventType.getD "undefined")) []
    let firstEvent := events.head?.bind (fun e => e.timestamp)
    let lastEvent := events.getLast?.bind (fun e => e.timestamp)
    let duration : Int :=
      match truthyStr firstEvent, truthyStr lastEvent with
      | some f, some l => (parseMs l - parseMs f + 500).fdiv 1000
      | _, _ => 0
    let eventTypes := events.map (fun e => e.eventType)
    let conversionFunnel : Funnel := {
      landed := eventTypes.contains (some "landing")
      engaged := eventTypes.any (fun t =>
        ["click", "page_view", "quiz_start"].any (fun x => t = some x))
      startedCheckout := eventTypes.contains (some "checkout_start")
      converted := eventTypes.contains (some "checkout_complete") }
    .ok {
      sessionId := m.sessionId, externalId := m.externalId, status := m.status,
      duration := duration, eventCount := events.length, stepsTaken := m.stepsTaken,
      eventBreakdown := eventBreakdown, firstEvent := firstEvent,
      lastEvent := lastEvent, conversionFunnel := conversionFunnel,
      createdAt := m.createdAt, updatedAt := m.updatedAt }

end SessionService

namespace EventService

/-- The trimmed event `eventService.trackEvent` returns. -/
structure TrackResp where
  eventId : Option String
  sessionId : Option String
  eventType : Option String
  timestamp : Option String
deriving DecidableEq, Repr

/-- `eventService.trackEvent`: validates the event type, requires the
owning session to exist, writes the event item, and then bumps the
session step counter inside a try/catch whose failure is logged and
swallowed (the event write is never rolled back).  `ts` and `eid` are
the generated timestamp and uuid; the same supplied instant also serves
for the updatedAt stamp of the counter write. -/
def trackEvent (inp : EventRepo.EventInput) (ts eid : String) (s : Store) :
    Except Err TrackResp × Store :=
  match validateEventType inp.eventType with
  | .error e => (.error e, s)
  | .ok _ =>
    match SessionRepo.getSession inp.sessionId s with
    | none =>
        (.error (.notFound ("Session not found: " ++ inp.sessionId) (some "session")), s)
    | some _ =>
      -- validateObject(eventData): an embedded JsObj is always a plain
      -- object, so the check never throws here.
      let (event, s1) := EventRepo.createEvent inp ts eid s
      let s2 :=
        match SessionService.incrementSessionSteps inp.sessionId ts s1 with
        | (_, s') => s'
      (.ok { eventId := event.eventId, sessionId := event.sessionId,
             eventType := event.eventType, timestamp := event.timestamp }, s2)

/-- One request of a batch body: `{ sessionId, eventType, eventData }`.
Batch items carry no request context, so userAgent and ipAddress are
undefined for them. -/
structure BatchItem where
  sessionId : String
  eventType : String
  eventData : Option JsObj
deriving Repr

/-- One entry of the batch report: either
`{ index, success: true, ...result }` or
`{ index, success: false, error }`. -/
inductive BatchEntry where
  | ok (index : Nat) (result : TrackResp)
  | fail (index : Nat) (error : String)
deriving DecidableEq, Repr

def BatchEntry.index : BatchEntry → Nat
  | .ok i _ => i
  | .fail i _ => i

def BatchEntry.isOk : BatchEntry → Bool
  | .ok _ _ => true
  | .fail _ _ => false

/-- The batch report `{ total, successful, failed, results, errors }`. -/
structure BatchReport where
  total : Nat
  successful : Nat
  failed : Nat
  results : List BatchEntry
  errors : List BatchEntry
deriving Repr

/-- One batch item processed at its global index: a thrown error is
caught and becomes a failure entry carrying the error message.  The
per-item timestamp and uuid come from the supply at the global index. -/
def trackOne (idx : Nat) (b : BatchItem) (supply : Nat → String × String) (s : Store) :
    BatchEntry × Store :=
  let (ts, eid) := supply idx
  match trackEvent
      { sessionId := b.sessionId, eventType := b.eventType,
        eventData := b.eventData, userAgent := none, ipAddress := none } ts eid s with
  | (.ok r, s1) => (.ok idx r, s1)
  | (.error e, s1) => (.fail idx e.message, s1)

/-- The batch loop.  The source slices the input into windows of 5 and
awaits each window with `Promise.all`; `Promise.all` keeps the entries
in input order and the windows run one after another, so in this
sequential embedding the window boundaries are not observable and the
items are processed one by one in input order at consecutive global
indices. -/
def runBatch : Nat → List BatchItem → (Nat → String × String) → Store →
    List BatchEntry × Store
  | _, [], _, s => ([], s)
  | idx, b :: rest, supply, s =>
    let (entry, s1) := trackOne idx b supply s
    let (entries, s2) := runBatch (idx + 1) rest supply s1
    (entry :: entries, s2)

/-- `eventService.trackBatchEvents`: rejects an empty batch and a batch
of more than 25 items before touching the store, then processes every
item independently, partitioning the entries into `results` and
`errors` (both kept in processing order). -/
def trackBatchEvents (events : List BatchItem) (supply : Nat → String × String)
    (s : Store) : Except Err BatchReport × Store :=
  if events.length = 0 then
    (.error (.validation "events must be a non-empty array" none), s)
  else if 25 < events.length then
    (.error (.validation "Cannot track more than 25 events at once" none), s)
  else
    let (entries, s1) := runBatch 0 events supply s
    let results := entries.filter (fun e => e.isOk)
    let errors := entries.filter (fun e => !e.isOk)
    (.ok { total := events.length, successful := results.length,
           failed := errors.length, results := results, errors := errors }, s1)

/-- `eventService.deleteEvent`: validates the id, deletes the event
item, then (best effort, failures swallowed) decrements the session
step counter only when it is strictly positive. -/
def deleteEvent (sessionId eid ts now : String) (s : Store) :
    Except Err (String × Bool) × Store :=
  match validateSessionId sessionId with
  | .error e => (.error e, s)
  | .ok _ =>
    let s1 := EventRepo.deleteEvent sessionId eid ts s
    let s2 :=
      match SessionRepo.getSession sessionId s1 with
      | some m =>
        if m.stepsTaken.getD 0 > 0 then
          (SessionRepo.updateSession sessionId
            { stepsTaken := some (some (m.stepsTaken.getD 0 - 1)),
              updatedAt := some (some now) } now s1).2
        else s1
      | none => s1
    (.ok (eid, true), s2)

end EventService

/-- The operations the engine exposes to its HTTP-facing collaborator
that mutate the store (create/update/delete session, track/delete
event, batch track), with the nondeterministic clock/uuid reads as
explicit arguments. -/
inductive Op where
  | create (sessionId externalId userAgent ipAddress : Option String)
      (md : Option JsObj) (now : String)
  | update (sessionId : String) (u : SessionService.UpdateReq) (now : String)
  | removeSession (sessionId : String)
  | track (inp : EventRepo.EventInput) (ts eid : String)
  | removeEvent (sessionId eid ts now : String)
  | batch (events : List EventService.BatchItem) (supply : Nat → String × String)

/-- The store state an exposed operation leaves behind (thrown errors
leave the store as it was). -/
def applyOp (s : Store) : Op → Store
  | .create sid ext ua ip md now => (SessionService.createSession sid ext ua ip md now s).2
  | .update sid u now => (SessionService.updateSession sid u now s).2
  | .removeSession sid => (SessionService.deleteSession sid s).2
  | .track inp ts eid => (EventService.trackEvent inp ts eid s).2
  | .removeEvent sid eid ts now => (EventService.deleteEvent sid eid ts now s).2
  | .batch evs supply => (EventService.trackBatchEvents evs supply s).2

/-- States reachable from the empty store through the exposed
operations, with no restriction on the inputs. -/
inductive Reach0 : Store → Prop where
  | empty : Reach0 []
  | step (s : Store) (op : Op) : Reach0 s → Reach0 (applyOp s op)

/-- A partial update whose `stepsTaken` field, when present, is a
non-negative integer. -/
def goodStepsUpdate (u : SessionService.UpdateReq) : Prop :=
  u.stepsTaken = none ∨ ∃ n : Int, u.stepsTaken = some (some n) ∧ 0 ≤ n

/-- Well-formedness of an operation input: only session updates are
restricted (their caller-supplied `stepsTaken`, if any, must be a
non-negative integer). -/
def Op.wf : Op → Prop
  | .update _ u _ => goodStepsUpdate u
  | _ => True

/-- States reachable from the empty store through the exposed
operations with well-formed inputs. -/
inductive ReachSafe : Store → Prop where
  | empty : ReachSafe []
  | step (s : Store) (op : Op) : ReachSafe s → op.wf → ReachSafe (applyOp s op)

/-- Every stored `stepsTaken` attribute is a non-negative integer. -/
def stepsOk (s : Store) : Prop :=
  ∀ it ∈ s, ∀ n : Int, it.stepsTaken = some n → 0 ≤ n

/-! ### Store-level helper lemmas -/

theorem find?_filter_of_imp {α : Type} {p q : α → Bool} {l : List α}
    (h : ∀ x, p x = true → q x = true) : (l.filter q).find? p = l.find? p := by
  induction l with
  | nil => rfl
  | cons a t ih =>
    cases hq : q a with
    | true =>
      rw [List.filter_cons_of_pos hq]
      cases hpa : p a with
      | true => rw [List.find?_cons_of_pos _ hpa, List.find?_cons_of_pos _ hpa]
      | false =>
        rw [List.find?_cons_of_neg _ (by simp [hpa]),
          List.find?_cons_of_neg _ (by simp [hpa])]
        exact ih
    | false =>
      rw [List.filter_cons_of_neg (by simp [hq])]
      have hpa : p a = false := by
        cases hpa : p a with
        | true => exact absurd (h a hpa) (by simp [hq])
        | false => rfl
      rw [List.find?_cons_of_neg _ (by simp [hpa])]
      exact ih

theorem mem_putItem {x item : Item} {s : Store}
    (h : x ∈ (Db.putItem item s).2) : x ∈ s ∨ x = item := by
  simp only [Db.putItem, List.mem_append, List.mem_filter, List.mem_singleton] at h
  rcases h with ⟨hx, _⟩ | hx
  · exact Or.inl hx
  · exact Or.inr hx

theorem mem_deleteItem {x : Item} {pk : String} {sk : SortKey} {s : Store}
    (h : x ∈ Db.deleteItem pk sk s) : x ∈ s := by
  simp only [Db.deleteItem, List.mem_filter] at h
  exact h.1

theorem getItem_putItem_same {item : Item} {s : Store} :
    Db.getItem item.PK item.SK (Db.putItem item s).2 = some item := by
  unfold Db.getItem Db.putItem
  rw [List.find?_append]
  have h1 : (s.filter (fun it => decide (¬(it.PK = item.PK ∧ it.SK = item.SK)))).find?
      (fun it => decide (it.PK = item.PK ∧ it.SK = item.SK)) = none := by
    rw [List.find?_eq_none]
    intro x hx
    simp only [List.mem_filter, decide_eq_true_eq] at hx
    simp only [decide_eq_true_eq]
    exact hx.2
  rw [h1]
  simp

theorem getItem_putItem_same2 {item : Item} {s : Store} {pk : String} {sk : SortKey}
    (hpk : item.PK = pk) (hsk : item.SK = sk) :
    Db.getItem pk sk (Db.putItem item s).2 = some item := by
  subst hpk
  subst hsk
  exact getItem_putItem_same

theorem getItem_putItem_other {item : Item} {pk : String} {sk : SortKey} {s : Store}
    (h : ¬(item.PK = pk ∧ item.SK = sk)) :
    Db.getItem pk sk (Db.putItem item s).2 = Db.getItem pk sk s := by
  unfold Db.getItem Db.putItem
  rw [List.find?_append]
  have h2 : List.find? (fun it => decide (it.PK = pk ∧ it.SK = sk)) [item] = none := by
    simp only [List.find?_cons, List.find?_nil]
    have : (decide (item.PK = pk ∧ item.SK = sk)) = false := by simpa using h
    simp [this]
  rw [h2, Option.or_none]
  apply find?_filter_of_imp
  intro x hx
  simp only [decide_eq_true_eq] at hx ⊢
  intro hc
  exact h ⟨hc.1 ▸ hx.1, hc.2 ▸ hx.2⟩

theorem getSession_mem {sid : String} {s : Store} {m : Item}
    (h : SessionRepo.getSession sid s = some m) : m ∈ s := by
  unfold SessionRepo.getSession Db.getItem at h
  exact List.mem_of_find?_eq_some h

theorem getSession_props {sid : String} {s : Store} {m : Item}
    (h : SessionRepo.getSession sid s = some m) :
    m.PK = "SESSION#" ++ sid ∧ m.SK = .metadata := by
  unfold SessionRepo.getSession Db.getItem at h
  have := List.find?_some h
  simpa using this

theorem stepsOk_nil : stepsOk [] := by
  intro it hit
  simp at hit

theorem stepsOk_putItem {item : Item} {s : Store} (hs : stepsOk s)
    (hit : ∀ n : Int, item.stepsTaken = some n → 0 ≤ n) :
    stepsOk (Db.putItem item s).2 := by
  intro x hx n hn
  rcases mem_putItem hx with hmem | rfl
  · exact hs x hmem n hn
  · exact hit n hn

theorem stepsOk_deleteItem {pk : String} {sk : SortKey} {s : Store} (hs : stepsOk s) :
    stepsOk (Db.deleteItem pk sk s) := by
  intro x hx n hn
  exact hs x (mem_deleteItem hx) n hn

theorem stepsOk_foldlDelete {L : List Item} {s : Store} (hs : stepsOk s) :
    stepsOk (L.foldl (fun st it => Db.deleteItem it.PK it.SK st) s) := by
  induction L generalizing s with
  | nil => exact hs
  | cons a t ih => exact ih (stepsOk_deleteItem hs)

theorem stepsOk_repoUpdate {sid : String} {fu : SessionRepo.FieldUpdates}
    {now : String} {s : Store} (hs : stepsOk s)
    (hfu : fu.stepsTaken = none ∨ ∃ n : Int, fu.stepsTaken = some (some n) ∧ 0 ≤ n) :
    stepsOk (SessionRepo.updateSession sid fu now s).2 := by
  unfold SessionRepo.updateSession
  cases hget : SessionRepo.getSession sid s with
  | none => exact hs
  | some existing =>
    apply stepsOk_putItem hs
    intro n hn
    simp only [SessionRepo.applyFieldUpdates] at hn
    rcases hfu with hnone | ⟨k, hk, hk0⟩
    · rw [hnone] at hn
      simp only [Option.getD_none] at hn
      exact hs existing (getSession_mem hget) n hn
    · rw [hk] at hn
      simp only [Option.getD_some] at hn
      rw [← Option.some.inj hn]
      exact hk0

theorem stepsOk_increment {sid now : String} {s : Store} (hs : stepsOk s) :
    stepsOk (SessionService.incrementSessionSteps sid now s).2 := by
  unfold SessionService.incrementSessionSteps
  cases validateSessionId sid with
  | error e => exact hs
  | ok _ =>
    cases hget : SessionRepo.getSession sid s with
    | none => exact hs
    | some m =>
      simp only
      apply stepsOk_repoUpdate hs
      refine Or.inr ⟨m.stepsTaken.getD 0 + 1, rfl, ?_⟩
      have h0 : (0 : Int) ≤ m.stepsTaken.getD 0 := by
        cases hm : m.stepsTaken with
        | none => simp
        | some k =>
          simp only [Option.getD_some]
          exact hs m (getSession_mem hget) k hm
      omega

theorem stepsOk_trackEvent {inp : EventRepo.EventInput} {ts eid : String} {s : Store}
    (hs : stepsOk s) : stepsOk (EventService.trackEvent inp ts eid s).2 := by
  unfold EventService.trackEvent
  cases validateEventType inp.eventType with
  | error e => exact hs
  | ok _ =>
    cases SessionRepo.getSession inp.sessionId s with
    | none => exact hs
    | some m =>
      simp only [EventRepo.createEvent]
      exact stepsOk_increment (stepsOk_putItem hs (by intro n hn; simp at hn))

theorem stepsOk_trackOne {idx : Nat} {b : EventService.BatchItem}
    {supply : Nat → String × String} {s : Store} (hs : stepsOk s) :
    stepsOk (EventService.trackOne idx b supply s).2 := by
  unfold EventService.trackOne
  split
  next ts eid heq1 =>
  split
  next r s1 heq => exact congrArg Prod.snd heq ▸ stepsOk_trackEvent hs
  next e s1 heq => exact congrArg Prod.snd heq ▸ stepsOk_trackEvent hs

theorem stepsOk_runBatch {L : List EventService.BatchItem} {idx : Nat}
    {supply : Nat → String × String} {s : Store} (hs : stepsOk s) :
    stepsOk (EventService.runBatch idx L supply s).2 := by
  induction L generalizing idx s with
  | nil => exact hs
  | cons b rest ih =>
    simp only [EventService.runBatch]
    exact ih (stepsOk_trackOne hs)

theorem stepsOk_repoCreate {d : SessionRepo.SessionData} {now : String} {s : Store}
    (hs : stepsOk s) (hd : 0 ≤ d.stepsTaken.getD 0) :
    stepsOk (SessionRepo.createSession d now s).2 := by
  unfold SessionRepo.createSession
  simp only
  split
  · apply stepsOk_putItem hs
    intro n hn
    simp only at hn
    rw [← Option.some.inj hn]
    exact hd
  · apply stepsOk_putItem hs
    intro n hn
    simp only at hn
    rw [← Option.some.inj hn]
    exact hd

theorem stepsOk_serviceCreate {sid ext ua ip : Option String} {md : Option JsObj}
    {now : String} {s : Store} (hs : stepsOk s) :
    stepsOk (SessionService.createSession sid ext ua ip md now s).2 := by
  unfold SessionService.createSession
  simp only []
  exact stepsOk_repoCreate hs (by simp)

theorem stepsOk_serviceUpdate {sid : String} {u : SessionService.UpdateReq}
    {now : String} {s : Store} (hs : stepsOk s) (hu : goodStepsUpdate u) :
    stepsOk (SessionService.updateSession sid u now s).2 := by
  unfold SessionService.updateSession
  cases validateSessionId sid with
  | error e => exact hs
  | ok _ =>
    simp only
    cases hall : u.hasAllowed with
    | false => simp only [hall, Bool.false_eq_true, if_false]; exact hs
    | true =>
      simp only [hall, if_true]
      split
      next s1 heq => exact congrArg Prod.snd heq ▸ stepsOk_repoUpdate hs hu
      next it s1 heq => exact congrArg Prod.snd heq ▸ stepsOk_repoUpdate hs hu

theorem stepsOk_serviceDelete {sid : String} {s : Store} (hs : stepsOk s) :
    stepsOk (SessionService.deleteSession sid s).2 := by
  unfold SessionService.deleteSession
  cases validateSessionId sid with
  | error e => exact hs
  | ok _ =>
    simp only
    exact stepsOk_foldlDelete hs

theorem stepsOk_serviceDeleteEvent {sid eid ts now : String} {s : Store}
    (hs : stepsOk s) : stepsOk (EventService.deleteEvent sid eid ts now s).2 := by
  unfold EventService.deleteEvent
  cases validateSessionId sid with
  | error e => exact hs
  | ok _ =>
    simp only
    have hs1 : stepsOk (EventRepo.deleteEvent sid eid ts s) := stepsOk_deleteItem hs
    cases hget : SessionRepo.getSession sid (EventRepo.deleteEvent sid eid ts s) with
    | none => exact hs1
    | some m =>
      simp only
      split
      next hpos =>
        apply stepsOk_repoUpdate hs1
        exact Or.inr ⟨m.stepsTaken.getD 0 - 1, rfl, by omega⟩
      next hpos => exact hs1

theorem stepsOk_batch {evs : List EventService.BatchItem}
    {supply : Nat → String × String} {s : Store} (hs : stepsOk s) :
    stepsOk (EventService.trackBatchEvents evs supply s).2 := by
  unfold EventService.trackBatchEvents
  split
  · exact hs
  · split
    · exact hs
    · split
      next entries s1 heq => exact congrArg Prod.snd heq ▸ stepsOk_runBatch hs

/-- Claim C7 (amended).  In every state reachable from the empty store
through the exposed operations whose caller-supplied `stepsTaken` update
values (the one input that writes the counter directly) are non-negative
integers, every stored `stepsTaken` attribute is a non-negative integer:
creation initialises it to 0, each successfully recorded event
increments it by 1, and each event deletion decrements it only when it
is strictly positive.  The amendment is forced: the partial-update
allow-list includes `stepsTaken`, so an unrestricted `updateSession` can
store any caller-chosen value (see the counterexample). -/
theorem c7_stepsTaken_nonneg {s : Store} (h : ReachSafe s) : stepsOk s := by
  induction h with
  | empty => exact stepsOk_nil
  | step s op hr hwf ih =>
    cases op with
    | create sid ext ua ip md now => exact stepsOk_serviceCreate ih
    | update sid u now => exact stepsOk_serviceUpdate ih hwf
    | removeSession sid => exact stepsOk_serviceDelete ih
    | track inp ts eid => exact stepsOk_trackEvent ih
    | removeEvent sid eid ts now => exact stepsOk_serviceDeleteEvent ih
    | batch evs supply => exact stepsOk_batch ih

/-- A concrete reachable state for the C7 witness: create a session,
then update its counter to 2 through the allow-listed field. -/
def c7WitnessStore : Store :=
  applyOp (applyOp [] (Op.create (some "s1") none none none none "T0"))
    (Op.update "s1" { stepsTaken := some (some 2) } "T1")

/-- Witness for claim C7: the invariant theorem applied to a concrete
two-operation history. -/
theorem c7_witness : stepsOk c7WitnessStore :=
  c7_stepsTaken_nonneg
    (ReachSafe.step _ _ (ReachSafe.step _ _ ReachSafe.empty trivial)
      (Or.inr ⟨2, rfl, by decide⟩))

/-- A concrete state reachable through the unrestricted exposed
operations: create session `s1`, then `PATCH` it with
`stepsTaken = -1`, which the allow-list filter accepts. -/
def c7CexStore : Store :=
  applyOp (applyOp [] (Op.create (some "s1") none none none none "T0"))
    (Op.update "s1" { stepsTaken := some (some (-1)) } "T1")

/-- Counterexample to claim C7 as stated: the two-operation history
above is reachable through the exposed operations from the empty store,
yet the stored session's `stepsTaken` is -1, a negative value, because
`updateSession` writes any caller-supplied `stepsTaken` unchecked. -/
theorem c7_counterexample : Reach0 c7CexStore ∧ ¬ stepsOk c7CexStore := by
  constructor
  · exact Reach0.step _ _ (Reach0.step _ _ Reach0.empty)
  · intro hok
    have hget : (SessionRepo.getSession "s1" c7CexStore).bind Item.stepsTaken
        = some (-1) := by decide
    cases hm : SessionRepo.getSession "s1" c7CexStore with
    | none => rw [hm] at hget; simp at hget
    | some m =>
      rw [hm] at hget
      simp only [Option.some_bind] at hget
      have := hok m (getSession_mem hm) (-1) hget
      omega

/-- Claim C3.  An empty batch or a batch of more than 25 items is
rejected with `ValidationError` before any store operation runs: the
store after the call is exactly the store before it. -/
theorem c3_batch_size_rejected (events : List EventService.BatchItem)
    (supply : Nat → String × String) (s : Store)
    (h : events.length = 0 ∨ 25 < events.length) :
    (EventService.trackBatchEvents events supply s).2 = s ∧
    ∃ msg, (EventService.trackBatchEvents events supply s).1 =
      .error (.validation msg none) := by
  unfold EventService.trackBatchEvents
  rcases h with h0 | h25
  · rw [if_pos h0]
    exact ⟨rfl, ⟨_, rfl⟩⟩
  · have hne : ¬ events.length = 0 := by omega
    rw [if_neg hne, if_pos h25]
    exact ⟨rfl, ⟨_, rfl⟩⟩

/-- A concrete oversized batch (26 identical well-formed items). -/
def c3Batch : List EventService.BatchItem :=
  List.replicate 26 { sessionId := "s", eventType := "landing", eventData := none }

/-- Witness for claim C3: a 26-item batch against the empty store is
rejected and the store is untouched. -/
theorem c3_witness :
    (c3Batch.length = 0 ∨ 25 < c3Batch.length) ∧
    ((EventService.trackBatchEvents c3Batch (fun _ => ("t", "e")) []).2 = [] ∧
      ∃ msg, (EventService.trackBatchEvents c3Batch (fun _ => ("t", "e")) []).1 =
        .error (.validation msg none)) :=
  ⟨by decide, c3_batch_size_rejected c3Batch (fun _ => ("t", "e")) [] (by decide)⟩

/-- Claim C4.  When the session metadata item is absent,
`getSessionTimeline` fails with `NotFoundError`, whatever event items
the range query may have found under the same partition identity. -/
theorem c4_timeline_notFound {sid : String} {s : Store}
    (h : SessionRepo.getSession sid s = none) :
    SessionService.getSessionTimeline sid s =
      .error (.notFound ("Session not found: " ++ sid) (some "session")) := by
  unfold SessionService.getSessionTimeline SessionRepo.getSessionTimeline
  simp only [h]

/-- A store holding one orphaned event item for partition `ghost` and
no session metadata item. -/
def c4Store : Store :=
  (EventRepo.createEvent
    { sessionId := "ghost", eventType := "landing", eventData := none,
      userAgent := none, ipAddress := none } "2024-01-01T00:00:00.000Z" "e1" []).2

/-- Witness for claim C4: the metadata item is absent while an orphaned
event item exists, and the timeline call fails with `NotFoundError`. -/
theorem c4_witness :
    SessionRepo.getSession "ghost" c4Store = none ∧
    (EventRepo.getSessionEvents "ghost" c4Store).length = 1 ∧
    SessionService.getSessionTimeline "ghost" c4Store =
      .error (.notFound ("Session not found: " ++ "ghost") (some "session")) :=
  ⟨by decide, by decide, c4_timeline_notFound (by decide)⟩

/-- Characterisation of the item `sessionRepository.createSession`
writes and of the store it returns. -/
theorem repoCreate_spec (d : SessionRepo.SessionData) (now : String) (s : Store) :
    (SessionRepo.createSession d now s).2 =
      (Db.putItem (SessionRepo.createSession d now s).1 s).2 ∧
    (SessionRepo.createSession d now s).1.PK = "SESSION#" ++ jsStr d.sessionId ∧
    (SessionRepo.createSession d now s).1.SK = .metadata ∧
    (SessionRepo.createSession d now s).1.sessionId = d.sessionId ∧
    (SessionRepo.createSession d now s).1.itemType = "SESSION_METADATA" ∧
    (SessionRepo.createSession d now s).1.externalId = truthyStr d.externalId ∧
    (SessionRepo.createSession d now s).1.stepsTaken = some (d.stepsTaken.getD 0) ∧
    (SessionRepo.createSession d now s).1.createdAt = some now ∧
    ((SessionRepo.createSession d now s).1.GSI1PK =
      if (truthyStr d.externalId).isSome then
        some ("USER#" ++ (truthyStr d.externalId).getD "") else none) := by
  unfold SessionRepo.createSession
  simp only []
  split
  next h => exact ⟨rfl, rfl, rfl, rfl, rfl, rfl, rfl, rfl, rfl⟩
  next h => exact ⟨rfl, rfl, rfl, rfl, rfl, rfl, rfl, rfl, rfl⟩

/-- The service create call in terms of the repository call. -/
theorem serviceCreate_eq (sid ext ua ip : Option String) (md : Option JsObj)
    (now : String) (s : Store) :
    SessionService.createSession sid ext ua ip md now s =
      ({ sessionId := (SessionRepo.createSession
            { sessionId := sid, externalId := truthyStr ext,
              userAgent := truthyStr ua, ipAddress := truthyStr ip,
              status := some "active", stepsTaken := some 0,
              metadata := some (md.getD []) } now s).1.sessionId,
         externalId := (SessionRepo.createSession
            { sessionId := sid, externalId := truthyStr ext,
              userAgent := truthyStr ua, ipAddress := truthyStr ip,
              status := some "active", stepsTaken := some 0,
              metadata := some (md.getD []) } now s).1.externalId,
         status := (SessionRepo.createSession
            { sessionId := sid, externalId := truthyStr ext,
              userAgent := truthyStr ua, ipAddress := truthyStr ip,
              status := some "active", stepsTaken := some 0,
              metadata := some (md.getD []) } now s).1.status,
         createdAt := (SessionRepo.createSession
            { sessionId := sid, externalId := truthyStr ext,
              userAgent := truthyStr ua, ipAddress := truthyStr ip,
              status := some "active", stepsTaken := some 0,
              metadata := some (md.getD []) } now s).1.createdAt },
       (SessionRepo.createSession
          { sessionId := sid, externalId := truthyStr ext,
            userAgent := truthyStr ua, ipAddress := truthyStr ip,
            status := some "active", stepsTaken := some 0,
            metadata := some (md.getD []) } now s).2) := by
  unfold SessionService.createSession
  simp only []

/-- Claim C10.  A create-session request with an absent or null
`sessionId` raises no error and generates no id: the null value flows
through the service unchanged (the handler comment announcing id
generation notwithstanding) and the written metadata item's partition
key is the literal string `SESSION#null` produced by the template
literal. -/
theorem c10_null_sessionId_passthrough (ext ua ip : Option String) (md : Option JsObj)
    (now : String) (s : Store) :
    (SessionService.createSession none ext ua ip md now s).1.sessionId = none ∧
    ((Db.getItem "SESSION#null" .metadata
        (SessionService.createSession none ext ua ip md now s).2).map Item.PK
      = some "SESSION#null") ∧
    ((Db.getItem "SESSION#null" .metadata
        (SessionService.createSession none ext ua ip md now s).2).map Item.sessionId
      = some none) ∧
    ((Db.getItem "SESSION#null" .metadata
        (SessionService.createSession none ext ua ip md now s).2).map Item.itemType
      = some "SESSION_METADATA") := by
  have hpk : ("SESSION#" ++ jsStr none : String) = "SESSION#null" := by decide
  rw [serviceCreate_eq]
  obtain ⟨hstore, hPK, hSK, hsid, hty, -, -, -, -⟩ := repoCreate_spec
    { sessionId := none, externalId := truthyStr ext,
      userAgent := truthyStr ua, ipAddress := truthyStr ip,
      status := some "active", stepsTaken := some 0,
      metadata := some (md.getD []) } now s
  rw [hpk] at hPK
  have hget : Db.getItem "SESSION#null" .metadata
      (Db.putItem (SessionRepo.createSession
        { sessionId := none, externalId := truthyStr ext,
          userAgent := truthyStr ua, ipAddress := truthyStr ip,
          status := some "active", stepsTaken := some 0,
          metadata := some (md.getD []) } now s).1 s).2
      = some (SessionRepo.createSession
        { sessionId := none, externalId := truthyStr ext,
          userAgent := truthyStr ua, ipAddress := truthyStr ip,
          status := some "active", stepsTaken := some 0,
          metadata := some (md.getD []) } now s).1 := by
    rw [← hPK, ← hSK]
    exact getItem_putItem_same
  rw [hstore, hget]
  refine ⟨hsid, ?_, ?_, ?_⟩ <;> simp [hPK, hsid, hty]

/-- Repository update on an existing session: the merged item and the
written-back store. -/
theorem repoUpdate_found {sid : String} {fu : SessionRepo.FieldUpdates} {now : String}
    {s : Store} {m : Item} (h : SessionRepo.getSession sid s = some m) :
    SessionRepo.updateSession sid fu now s =
      (some { SessionRepo.applyFieldUpdates m fu with updatedAt := some now },
       (Db.putItem { SessionRepo.applyFieldUpdates m fu with updatedAt := some now } s).2) := by
  unfold SessionRepo.updateSession
  rw [h]
  rfl

/-- Repository update on a missing session: null result, store
untouched. -/
theorem repoUpdate_missing {sid : String} {fu : SessionRepo.FieldUpdates} {now : String}
    {s : Store} (h : SessionRepo.getSession sid s = none) :
    SessionRepo.updateSession sid fu now s = (none, s) := by
  unfold SessionRepo.updateSession
  rw [h]

/-- `validateSessionId` accepts any non-empty string. -/
theorem validateSessionId_ok {sid : String} (h : sid ≠ "") :
    validateSessionId sid = .ok () := by
  unfold validateSessionId
  rw [if_neg h]

/-- Claim C6 (amended).  For every existing session and every
partial-update object containing at least one allow-listed field,
`updateSession` merges into the stored item exactly the fields among
externalId/status/metadata/stepsTaken present in the update, stamps a
fresh `updatedAt`, and leaves every other stored field (keys, identity,
creation data, index attributes) unchanged; for a missing session (and
an update with at least one allow-listed field) it fails with
`NotFoundError` and leaves the store untouched.  The amendment is
forced: an update with no allow-listed field is rejected with
`ValidationError` before the existence check (see the counterexample),
so the claim cannot quantify over every partial-update object. -/
theorem c6_update_merge_frame :
    (∀ (sid : String) (u : SessionService.UpdateReq) (now : String) (s : Store) (m : Item),
      sid ≠ "" → u.hasAllowed = true → SessionRepo.getSession sid s = some m →
      ∃ resp it,
        SessionService.updateSession sid u now s = (.ok resp, (Db.putItem it s).2) ∧
        SessionRepo.getSession sid (SessionService.updateSession sid u now s).2 = some it ∧
        it.externalId = u.externalId.getD m.externalId ∧
        it.status = u.status.getD m.status ∧
        it.metadata = u.metadata.getD m.metadata ∧
        it.stepsTaken = u.stepsTaken.getD m.stepsTaken ∧
        it.updatedAt = some now ∧
        it.PK = m.PK ∧ it.SK = m.SK ∧ it.sessionId = m.sessionId ∧
        it.createdAt = m.createdAt ∧ it.userAgent = m.userAgent ∧
        it.ipAddress = m.ipAddress ∧ it.itemType = m.itemType ∧
        it.GSI1PK = m.GSI1PK ∧ it.GSI1SK = m.GSI1SK) ∧
    (∀ (sid : String) (u : SessionService.UpdateReq) (now : String) (s : Store),
      sid ≠ "" → u.hasAllowed = true → SessionRepo.getSession sid s = none →
      SessionService.updateSession sid u now s =
        (.error (.notFound ("Session not found: " ++ sid) (some "session")), s)) := by
  constructor
  · intro sid u now s m hsid hall hget
    have hprops := getSession_props hget
    unfold SessionService.updateSession
    rw [validateSessionId_ok hsid]
    simp only [hall, if_true]
    rw [repoUpdate_found hget]
    refine ⟨_, _, rfl, ?_, rfl, rfl, rfl, rfl, rfl, rfl, rfl, rfl, rfl, rfl, rfl,
      rfl, rfl, rfl⟩
    simp only []
    unfold SessionRepo.getSession
    exact getItem_putItem_same2 hprops.1 hprops.2
  · intro sid u now s hsid hall hget
    unfold SessionService.updateSession
    rw [validateSessionId_ok hsid]
    simp only [hall, if_true]
    rw [repoUpdate_missing hget]

/-- A concrete store holding the single session `s1` (for the C6
counterexample). -/
def c6CexStore : Store :=
  (SessionService.createSession (some "s1") none none none none "T0" []).2

/-- Counterexample to claim C6 as stated.  The claim quantifies over
every partial-update object, but an update containing no allow-listed
field is rejected with `ValidationError`: on an existing session no
merge happens and no `updatedAt` is stamped, and on a missing session
the error is `ValidationError`, not the claimed `NotFoundError`,
because the empty-filter check runs before the existence check. -/
theorem c6_counterexample :
    (SessionRepo.getSession "s1" c6CexStore).isSome = true ∧
    (SessionService.updateSession "s1" {} "T1" c6CexStore).1 =
      .error (.validation "No valid update fields provided" none) ∧
    SessionRepo.getSession "missing" c6CexStore = none ∧
    (SessionService.updateSession "missing" {} "T1" c6CexStore).1 =
      .error (.validation "No valid update fields provided" none) :=
  ⟨by decide, by rfl, by decide, by rfl⟩

/-- A concrete store holding the single session `w1` (for the C6
witness). -/
def c6wStore : Store :=
  (SessionService.createSession (some "w1") none none none none "T0" []).2

/-- The metadata item stored for `w1` in `c6wStore`. -/
def c6wItem : Item :=
  (SessionRepo.createSession
    { sessionId := some "w1", externalId := none, userAgent := none,
      ipAddress := none, status := some "active", stepsTaken := some 0,
      metadata := some [] } "T0" []).1

/-- A concrete partial update touching one allow-listed field. -/
def c6wUpd : SessionService.UpdateReq := { status := some (some "completed") }

/-- Witness for claim C6: both parts of the amended theorem applied at
concrete inputs. -/
theorem c6_witness :
    (("w1" : String) ≠ "" ∧ c6wUpd.hasAllowed = true ∧
      SessionRepo.getSession "w1" c6wStore = some c6wItem ∧
      ∃ resp it,
        SessionService.updateSession "w1" c6wUpd "T1" c6wStore =
          (.ok resp, (Db.putItem it c6wStore).2) ∧
        SessionRepo.getSession "w1"
          (SessionService.updateSession "w1" c6wUpd "T1" c6wStore).2 = some it ∧
        it.externalId = c6wUpd.externalId.getD c6wItem.externalId ∧
        it.status = c6wUpd.status.getD c6wItem.status ∧
        it.metadata = c6wUpd.metadata.getD c6wItem.metadata ∧
        it.stepsTaken = c6wUpd.stepsTaken.getD c6wItem.stepsTaken ∧
        it.updatedAt = some "T1" ∧
        it.PK = c6wItem.PK ∧ it.SK = c6wItem.SK ∧ it.sessionId = c6wItem.sessionId ∧
        it.createdAt = c6wItem.createdAt ∧ it.userAgent = c6wItem.userAgent ∧
        it.ipAddress = c6wItem.ipAddress ∧ it.itemType = c6wItem.itemType ∧
        it.GSI1PK = c6wItem.GSI1PK ∧ it.GSI1SK = c6wItem.GSI1SK) ∧
    (("nope" : String) ≠ "" ∧ SessionRepo.getSession "nope" c6wStore = none ∧
      SessionService.updateSession "nope" c6wUpd "T1" c6wStore =
        (.error (.notFound ("Session not found: " ++ "nope") (some "session")),
         c6wStore)) :=
  ⟨⟨by decide, rfl, by decide,
    c6_update_merge_frame.1 "w1" c6wUpd "T1" c6wStore c6wItem (by decide) rfl (by decide)⟩,
   ⟨by decide, by decide,
    c6_update_merge_frame.2 "nope" c6wUpd "T1" c6wStore (by decide) rfl (by decide)⟩⟩

theorem mem_deleteItem_iff {x : Item} {pk : String} {sk : SortKey} {s : Store} :
    x ∈ Db.deleteItem pk sk s ↔ x ∈ s ∧ ¬(x.PK = pk ∧ x.SK = sk) := by
  simp only [Db.deleteItem, List.mem_filter, decide_eq_true_eq]

theorem mem_foldlDelete {L : List Item} {s : Store} {x : Item} :
    x ∈ L.foldl (fun st it => Db.deleteItem it.PK it.SK st) s ↔
      x ∈ s ∧ ∀ it ∈ L, ¬(x.PK = it.PK ∧ x.SK = it.SK) := by
  induction L generalizing s with
  | nil => simp
  | cons a t ih =>
    rw [List.foldl_cons, ih]
    constructor
    · rintro ⟨hxd, hall⟩
      have hx := mem_deleteItem_iff.mp hxd
      refine ⟨hx.1, ?_⟩
      intro it hit
      rcases List.mem_cons.mp hit with rfl | hmem
      · exact hx.2
      · exact hall it hmem
    · rintro ⟨hx, hall⟩
      refine ⟨mem_deleteItem_iff.mpr ⟨hx, hall a (List.mem_cons_self a t)⟩, ?_⟩
      intro it hit
      exact hall it (List.mem_cons_of_mem a hit)

theorem length_filter_split {α : Type} (l : List α) (p q : α → Bool) :
    (l.filter p).length =
      (l.filter (fun x => p x && q x)).length +
      (l.filter (fun x => p x && !q x)).length := by
  induction l with
  | nil => rfl
  | cons a t ih =>
    simp only [List.filter_cons]
    cases hp : p a <;> cases hq : q a <;> simp [hp, hq, ih] <;> omega

/-- The service cascade delete, written out. -/
theorem serviceDelete_eq {sid : String} {s : Store} (hsid : sid ≠ "") :
    SessionService.deleteSession sid s =
      (.ok (sid, (Db.queryByPk ("SESSION#" ++ sid) s).length),
       (Db.queryByPk ("SESSION#" ++ sid) s).foldl
         (fun st it => Db.deleteItem it.PK it.SK st) s) := by
  unfold SessionService.deleteSession
  rw [validateSessionId_ok hsid]
  rfl

/-- Claim C8.  On a store whose partition for `sid` holds exactly one
metadata-keyed item and exactly three event items, the cascade delete
enumerates the partition, deletes every item, and reports a
removed-count of 4; the timeline call on the resulting store fails with
`NotFoundError`. -/
theorem c8_cascade_delete (sid : String) (s : Store) (hsid : sid ≠ "")
    (hMeta : (s.filter (fun it =>
      decide (it.PK = "SESSION#" ++ sid) && !it.SK.isEvent)).length = 1)
    (hEvents : (s.filter (fun it =>
      decide (it.PK = "SESSION#" ++ sid) && it.SK.isEvent)).length = 3) :
    (SessionService.deleteSession sid s).1 = .ok (sid, 4) ∧
    SessionService.getSessionTimeline sid (SessionService.deleteSession sid s).2 =
      .error (.notFound ("Session not found: " ++ sid) (some "session")) := by
  rw [serviceDelete_eq hsid]
  constructor
  · have hlen : (Db.queryByPk ("SESSION#" ++ sid) s).length = 4 := by
      unfold Db.queryByPk
      rw [List.length_insertionSort,
        length_filter_split s (fun it => decide (it.PK = "SESSION#" ++ sid))
          (fun it => it.SK.isEvent), hEvents, hMeta]
    rw [hlen]
  · have hnone : SessionRepo.getSession sid
        ((Db.queryByPk ("SESSION#" ++ sid) s).foldl
          (fun st it => Db.deleteItem it.PK it.SK st) s) = none := by
      unfold SessionRepo.getSession Db.getItem
      rw [List.find?_eq_none]
      intro x hx
      rw [mem_foldlDelete] at hx
      simp only [decide_eq_true_eq]
      rintro ⟨hpk, hsk⟩
      have hxL : x ∈ Db.queryByPk ("SESSION#" ++ sid) s := by
        unfold Db.queryByPk
        rw [List.mem_insertionSort]
        simp only [List.mem_filter, decide_eq_true_eq]
        exact ⟨hx.1, hpk⟩
      exact hx.2 x hxL ⟨rfl, rfl⟩
    unfold SessionService.getSessionTimeline SessionRepo.getSessionTimeline
    simp only [hnone]

/-- A concrete store with session `d1` and three tracked events. -/
def c8Store : Store :=
  applyOp (applyOp (applyOp (applyOp [] (Op.create (some "d1") none none none none "T0"))
    (Op.track { sessionId := "d1", eventType := "landing", eventData := none,
                userAgent := none, ipAddress := none } "T1" "e1"))
    (Op.track { sessionId := "d1", eventType := "click", eventData := none,
                userAgent := none, ipAddress := none } "T2" "e2"))
    (Op.track { sessionId := "d1", eventType := "page_view", eventData := none,
                userAgent := none, ipAddress := none } "T3" "e3")

/-- Witness for claim C8: the cascade-delete theorem applied to the
concrete metadata-plus-three-events store. -/
theorem c8_witness :
    (("d1" : String) ≠ "" ∧
      (c8Store.filter (fun it =>
        decide (it.PK = "SESSION#" ++ "d1") && !it.SK.isEvent)).length = 1 ∧
      (c8Store.filter (fun it =>
        decide (it.PK = "SESSION#" ++ "d1") && it.SK.isEvent)).length = 3) ∧
    ((SessionService.deleteSession "d1" c8Store).1 = .ok ("d1", 4) ∧
      SessionService.getSessionTimeline "d1"
        (SessionService.deleteSession "d1" c8Store).2 =
        .error (.notFound ("Session not found: " ++ "d1") (some "session"))) :=
  ⟨⟨by decide, by decide, by decide⟩,
   c8_cascade_delete "d1" c8Store (by decide) (by decide) (by decide)⟩

/-- JavaScript try-result shape: the ok payload of an `Except`, when
there is one. -/
def exceptOk {α : Type} : Except Err α → Option α
  | .ok a => some a
  | .error _ => none

/-- A concrete store for the C5 scenario: session `sess_1` with a
`landing` event and then a `checkout_complete` event. -/
def c5Store : Store :=
  applyOp (applyOp (applyOp [] (Op.create (some "sess_1") none none none none "T0"))
    (Op.track { sessionId := "sess_1", eventType := "landing", eventData := none,
                userAgent := none, ipAddress := none } "T1" "e1"))
    (Op.track { sessionId := "sess_1", eventType := "checkout_complete",
                eventData := none, userAgent := none, ipAddress := none } "T2" "e2")

/-- Claim C5.  The conversion funnel is four independent presence
checks over the session's event types, with no temporal gating between
stages; in particular a session with exactly a `landing` and then a
`checkout_complete` event yields
`landed = true, engaged = false, startedCheckout = false,
converted = true` and an event breakdown of one `landing` and one
`checkout_complete`. -/
theorem c5_funnel_presence_checks :
    (∀ (parseMs : String → Int) (sid : String) (s : Store) (m : Item),
      SessionRepo.getSession sid s = some m →
      ∃ a, SessionService.getSessionAnalytics parseMs sid s = .ok a ∧
        (a.conversionFunnel.landed = true ↔
          ∃ e ∈ EventRepo.getSessionEvents sid s, e.eventType = some "landing") ∧
        (a.conversionFunnel.engaged = true ↔
          ∃ e ∈ EventRepo.getSessionEvents sid s,
            e.eventType = some "click" ∨ e.eventType = some "page_view" ∨
            e.eventType = some "quiz_start") ∧
        (a.conversionFunnel.startedCheckout = true ↔
          ∃ e ∈ EventRepo.getSessionEvents sid s, e.eventType = some "checkout_start") ∧
        (a.conversionFunnel.converted = true ↔
          ∃ e ∈ EventRepo.getSessionEvents sid s, e.eventType = some "checkout_complete")) ∧
    ((exceptOk (SessionService.getSessionAnalytics (fun _ => 0) "sess_1" c5Store)).map
        (fun a => a.conversionFunnel) =
      some { landed := true, engaged := false, startedCheckout := false,
             converted := true } ∧
     (exceptOk (SessionService.getSessionAnalytics (fun _ => 0) "sess_1" c5Store)).map
        (fun a => a.eventBreakdown) =
      some [("landing", 1), ("checkout_complete", 1)]) := by
  constructor
  · intro parseMs sid s m hget
    unfold SessionService.getSessionAnalytics SessionRepo.getSessionTimeline
    simp only [hget]
    refine ⟨_, rfl, ?_, ?_, ?_, ?_⟩
    · simp [List.mem_map, eq_comm]
    · constructor
      · intro h
        simp only [List.any_eq_true, List.mem_map] at h
        rcases h with ⟨t, ⟨e, he, rfl⟩, ht⟩
        simp only [List.any_eq_true, List.mem_cons, decide_eq_true_eq] at ht
        rcases ht with ⟨x, hx, hex⟩
        refine ⟨e, he, ?_⟩
        rcases hx with rfl | hx
        · exact Or.inl hex
        rcases hx with rfl | hx
        · exact Or.inr (Or.inl hex)
        rcases hx with rfl | hx
        · exact Or.inr (Or.inr hex)
        · simp at hx
      · rintro ⟨e, he, hty⟩
        simp only [List.any_eq_true, List.mem_map]
        refine ⟨e.eventType, ⟨e, he, rfl⟩, ?_⟩
        simp only [List.any_eq_true, List.mem_cons, decide_eq_true_eq]
        rcases hty with h | h | h
        · exact ⟨"click", by simp, h⟩
        · exact ⟨"page_view", by simp, h⟩
        · exact ⟨"quiz_start", by simp, h⟩
    · simp [List.mem_map, eq_comm]
    · simp [List.mem_map, eq_comm]
  · exact ⟨by rfl, by rfl⟩

/-- The metadata item stored for `sess_1` in `c5Store` (after the two
step-counter increments). -/
def c5Item : Item :=
  { PK := "SESSION#sess_1", SK := .metadata, itemType := "SESSION_METADATA",
    sessionId := some "sess_1", externalId := none, userAgent := none,
    ipAddress := none, status := some "active", stepsTaken := some 2,
    createdAt := some "T0", updatedAt := some "T2", metadata := some [] }

/-- Witness for claim C5: the funnel characterisation applied to the
concrete landing-then-checkout store. -/
theorem c5_witness :
    SessionRepo.getSession "sess_1" c5Store = some c5Item ∧
    (∃ a, SessionService.getSessionAnalytics (fun _ => 0) "sess_1" c5Store = .ok a ∧
      (a.conversionFunnel.landed = true ↔
        ∃ e ∈ EventRepo.getSessionEvents "sess_1" c5Store,
          e.eventType = some "landing") ∧
      (a.conversionFunnel.engaged = true ↔
        ∃ e ∈ EventRepo.getSessionEvents "sess_1" c5Store,
          e.eventType = some "click" ∨ e.eventType = some "page_view" ∨
          e.eventType = some "quiz_start") ∧
      (a.conversionFunnel.startedCheckout = true ↔
        ∃ e ∈ EventRepo.getSessionEvents "sess_1" c5Store,
          e.eventType = some "checkout_start") ∧
      (a.conversionFunnel.converted = true ↔
        ∃ e ∈ EventRepo.getSessionEvents "sess_1" c5Store,
          e.eventType = some "checkout_complete")) :=
  ⟨by decide,
   c5_funnel_presence_checks.1 (fun _ => 0) "sess_1" c5Store c5Item (by decide)⟩

theorem str_append_left_cancel {p a b : String} (h : p ++ a = p ++ b) : a = b := by
  have hd := congrArg String.data h
  simp only [String.data_append] at hd
  have hl := List.append_cancel_left hd
  rcases a with ⟨la⟩
  rcases b with ⟨lb⟩
  exact congrArg String.mk hl

theorem putItem_singleton_replace {a b : Item} (hpk : b.PK = a.PK) (hsk : b.SK = a.SK) :
    (Db.putItem b [a]).2 = [b] := by
  unfold Db.putItem
  have hdec : (decide (¬(a.PK = b.PK ∧ a.SK = b.SK))) = false := by
    simp only [decide_eq_false_iff_not, Decidable.not_not]
    exact ⟨hpk.symm, hsk.symm⟩
  have hfil : List.filter (fun it => decide (¬(it.PK = b.PK ∧ it.SK = b.SK))) [a] = [] := by
    rw [List.filter_cons_of_neg]
    · rfl
    · intro hc
      rw [hdec] at hc
      exact absurd hc (by decide)
  show List.filter _ [a] ++ [b] = [b]
  rw [hfil]
  rfl

/-- The store component of the service create call, in terms of the
repository call. -/
theorem serviceCreate_snd (sid ext ua ip : Option String) (md : Option JsObj)
    (now : String) (s : Store) :
    (SessionService.createSession sid ext ua ip md now s).2 =
      (SessionRepo.createSession
        { sessionId := sid, externalId := truthyStr ext,
          userAgent := truthyStr ua, ipAddress := truthyStr ip,
          status := some "active", stepsTaken := some 0,
          metadata := some (md.getD []) } now s).2 :=
  congrArg Prod.snd (serviceCreate_eq sid ext ua ip md now s)

/-- Creating a session in the empty store yields exactly the created
item. -/
theorem repoCreate_empty (d : SessionRepo.SessionData) (now : String) :
    (SessionRepo.createSession d now []).2 = [(SessionRepo.createSession d now []).1] := by
  rw [(repoCreate_spec d now []).1]
  simp [Db.putItem]

/-- Lookup in a one-item store holding the session's metadata item. -/
theorem getSession_singleton {sid : String} {it : Item}
    (hpk : it.PK = "SESSION#" ++ sid) (hsk : it.SK = .metadata) :
    SessionRepo.getSession sid [it] = some it := by
  unfold SessionRepo.getSession Db.getItem
  rw [List.find?_cons_of_pos]
  simp only [decide_eq_true_eq]
  exact ⟨hpk, hsk⟩

/-- The store component of a successful service update: the merged item
written back over the loaded one. -/
theorem serviceUpdate_snd_found {sid : String} {u : SessionService.UpdateReq}
    {now : String} {s : Store} {m : Item}
    (hsid : sid ≠ "") (hall : u.hasAllowed = true)
    (hget : SessionRepo.getSession sid s = some m) :
    (SessionService.updateSession sid u now s).2 =
      (Db.putItem { SessionRepo.applyFieldUpdates m
        { externalId := u.externalId, status := u.status,
          metadata := u.metadata, stepsTaken := u.stepsTaken }
        with updatedAt := some now } s).2 := by
  unfold SessionService.updateSession
  rw [validateSessionId_ok hsid]
  simp only [hall, if_true]
  rw [repoUpdate_found hget]

/-- The `sessionData` record the service passes for the C9 scenario. -/
def c9Data (sid A : String) (ua ip : Option String) (md : Option JsObj) :
    SessionRepo.SessionData :=
  { sessionId := some sid, externalId := truthyStr (some A),
    userAgent := truthyStr ua, ipAddress := truthyStr ip,
    status := some "active", stepsTaken := some 0,
    metadata := some (md.getD []) }

/-- The metadata item created for the C9 scenario. -/
def c9Item1 (sid A : String) (ua ip : Option String) (md : Option JsObj)
    (t1 : String) : Item :=
  (SessionRepo.createSession (c9Data sid A ua ip md) t1 []).1

/-- The merged item written back by the C9 update. -/
def c9Item2 (sid A B : String) (ua ip : Option String) (md : Option JsObj)
    (t1 t2 : String) : Item :=
  { SessionRepo.applyFieldUpdates (c9Item1 sid A ua ip md t1)
      { externalId := some (some B) } with updatedAt := some t2 }

/-- The store reached from the empty store by creating a session with
externalId A and then re-pointing its externalId to B through the
service update. -/
def c9Store (sid A B : String) (ua ip : Option String) (md : Option JsObj)
    (t1 t2 : String) : Store :=
  (SessionService.updateSession sid { externalId := some (some B) } t2
    (SessionService.createSession (some sid) (some A) ua ip md t1 []).2).2

/-- The C9 store holds exactly the merged item. -/
theorem c9Store_eq (sid A B : String) (ua ip : Option String) (md : Option JsObj)
    (t1 t2 : String) (hsid : sid ≠ "") :
    c9Store sid A B ua ip md t1 t2 = [c9Item2 sid A B ua ip md t1 t2] := by
  unfold c9Store
  rw [serviceCreate_snd]
  rw [show (SessionRepo.createSession
      { sessionId := some sid, externalId := truthyStr (some A),
        userAgent := truthyStr ua, ipAddress := truthyStr ip,
        status := some "active", stepsTaken := some 0,
        metadata := some (md.getD []) } t1 []).2 =
    (SessionRepo.createSession (c9Data sid A ua ip md) t1 []).2 from rfl]
  rw [repoCreate_empty]
  rw [show [(SessionRepo.createSession (c9Data sid A ua ip md) t1 []).1] =
    [c9Item1 sid A ua ip md t1] from rfl]
  have hget : SessionRepo.getSession sid [c9Item1 sid A ua ip md t1] =
      some (c9Item1 sid A ua ip md t1) := by
    apply getSession_singleton
    · exact (repoCreate_spec (c9Data sid A ua ip md) t1 []).2.1
    · exact (repoCreate_spec (c9Data sid A ua ip md) t1 []).2.2.1
  have hall : (SessionService.UpdateReq.hasAllowed
      { externalId := some (some B) }) = true := rfl
  rw [serviceUpdate_snd_found hsid hall hget]
  exact putItem_singleton_replace rfl rfl

/-- Claim C9.  After a successful `updateSession` that changes a
session's externalId from A to B, the by-user lookup for B does not
return the session while the lookup for A still does: the read-modify-
write update spreads the stored item, so the GSI1 attributes computed
at creation from A are written back verbatim and never recomputed from
B. -/
theorem c9_gsi_keys_not_recomputed (sid A B : String) (ua ip : Option String)
    (md : Option JsObj) (t1 t2 : String)
    (hsid : sid ≠ "") (hA : A ≠ "") (hAB : A ≠ B) :
    SessionRepo.getSessionsByExternalId B 50 (c9Store sid A B ua ip md t1 t2) = [] ∧
    ∃ it, SessionRepo.getSessionsByExternalId A 50 (c9Store sid A B ua ip md t1 t2)
        = [it] ∧
      it.sessionId = some sid ∧ it.externalId = some B ∧
      it.GSI1PK = some ("USER#" ++ A) := by
  have hAt : truthyStr (some A) = some A := by simp [truthyStr, hA]
  have hx : truthyStr (c9Data sid A ua ip md).externalId = some A := by
    show truthyStr (truthyStr (some A)) = some A
    rw [hAt, hAt]
  have hgsi1 := (repoCreate_spec (c9Data sid A ua ip md) t1 []).2.2.2.2.2.2.2.2
  rw [hx] at hgsi1
  simp only [Option.isSome_some, if_true, Option.getD_some] at hgsi1
  have hgsi2 : (c9Item2 sid A B ua ip md t1 t2).GSI1PK = some ("USER#" ++ A) := hgsi1
  have hsid2 : (c9Item2 sid A B ua ip md t1 t2).sessionId = some sid :=
    (repoCreate_spec (c9Data sid A ua ip md) t1 []).2.2.2.1
  have hext2 : (c9Item2 sid A B ua ip md t1 t2).externalId = some B := rfl
  constructor
  · unfold SessionRepo.getSessionsByExternalId Db.queryGsi
    rw [c9Store_eq sid A B ua ip md t1 t2 hsid]
    have hdecB : decide ((c9Item2 sid A B ua ip md t1 t2).GSI1PK =
        some ("USER#" ++ B)) = false := by
      simp only [decide_eq_false_iff_not]
      intro hc
      rw [hgsi2] at hc
      exact hAB (str_append_left_cancel (Option.some.inj hc))
    rw [List.filter_cons_of_neg]
    · simp
    · intro hc
      rw [hdecB] at hc
      exact absurd hc (by decide)
  · refine ⟨c9Item2 sid A B ua ip md t1 t2, ?_, hsid2, hext2, hgsi2⟩
    unfold SessionRepo.getSessionsByExternalId Db.queryGsi
    rw [c9Store_eq sid A B ua ip md t1 t2 hsid]
    rw [List.filter_cons_of_pos]
    · simp [List.insertionSort, List.orderedInsert]
    · simp only [decide_eq_true_eq]
      exact hgsi2

/-- Witness for claim C9: concrete session with externalId re-pointed
from one user to another. -/
theorem c9_witness :
    (("s9" : String) ≠ "" ∧ ("a@x" : String) ≠ "" ∧ ("a@x" : String) ≠ "b@x") ∧
    (SessionRepo.getSessionsByExternalId "b@x" 50
        (c9Store "s9" "a@x" "b@x" none none none "T1" "T2") = [] ∧
      ∃ it, SessionRepo.getSessionsByExternalId "a@x" 50
          (c9Store "s9" "a@x" "b@x" none none none "T1" "T2") = [it] ∧
        it.sessionId = some "s9" ∧ it.externalId = some "b@x" ∧
        it.GSI1PK = some ("USER#" ++ "a@x")) :=
  ⟨⟨by decide, by decide, by decide⟩,
   c9_gsi_keys_not_recomputed "s9" "a@x" "b@x" none none none "T1" "T2"
     (by decide) (by decide) (by decide)⟩

/-- Every batch entry carries the global index it was processed at. -/
theorem trackOne_index (idx : Nat) (b : EventService.BatchItem)
    (supply : Nat → String × String) (s : Store) :
    (EventService.trackOne idx b supply s).1.index = idx := by
  unfold EventService.trackOne
  split
  next ts eid heq1 =>
  split
  next r s1 heq => rfl
  next e s1 heq => rfl

/-- The batch loop emits one entry per item, indexed consecutively from
the start index. -/
theorem runBatch_indices (l : List EventService.BatchItem) (idx : Nat)
    (supply : Nat → String × String) (s : Store) :
    (EventService.runBatch idx l supply s).1.map EventService.BatchEntry.index =
      List.range' idx l.length := by
  induction l generalizing idx s with
  | nil => rfl
  | cons b rest ih =>
    simp only [EventService.runBatch]
    rw [List.length_cons, List.range'_succ]
    simp only [List.map_cons]
    rw [trackOne_index, ih]

/-- A concrete store with session `b1` for the C2 scenario. -/
def c2Store : Store :=
  (SessionService.createSession (some "b1") none none none none "T0" []).2

/-- Five batch items for session `b1`, the third one with an invalid
event type. -/
def c2Events : List EventService.BatchItem :=
  [{ sessionId := "b1", eventType := "landing", eventData := none },
   { sessionId := "b1", eventType := "click", eventData := none },
   { sessionId := "b1", eventType := "not_a_type", eventData := none },
   { sessionId := "b1", eventType := "page_view", eventData := none },
   { sessionId := "b1", eventType := "custom", eventData := none }]

/-- A concrete timestamp/uuid supply for the C2 scenario. -/
def c2Supply : Nat → String × String := fun i => ("T" ++ toString i, "e" ++ toString i)

/-- Claim C2.  For every batch of 1 to 25 items the call succeeds with a
report that accounts for every item independently: `total` is the input
length, `successful + failed = total`, the indices carried by the
`results` and `errors` entries are exactly the input positions (each
exactly once), and entries land in `results` exactly when their item
succeeded.  The concrete five-item scenario with one invalid eventType
at position 2 yields successful = 4, failed = 1, the failure entry at
index 2 and the sibling successes at indices 0, 1, 3, 4 — the failure
neither aborts nor rolls back the siblings. -/
theorem c2_batch_partial_success :
    (∀ (events : List EventService.BatchItem) (supply : Nat → String × String)
        (s : Store),
      1 ≤ events.length → events.length ≤ 25 →
      ∃ rep s1, EventService.trackBatchEvents events supply s = (.ok rep, s1) ∧
        rep.total = events.length ∧
        rep.successful + rep.failed = events.length ∧
        ((rep.results ++ rep.errors).map EventService.BatchEntry.index).Perm
          (List.range events.length) ∧
        (∀ e ∈ rep.results, e.isOk = true) ∧
        (∀ e ∈ rep.errors, e.isOk = false)) ∧
    ((exceptOk (EventService.trackBatchEvents c2Events c2Supply c2Store).1).map
        (fun r => (r.total, r.successful, r.failed)) = some (5, 4, 1) ∧
     (exceptOk (EventService.trackBatchEvents c2Events c2Supply c2Store).1).map
        (fun r => r.errors.map EventService.BatchEntry.index) = some [2] ∧
     (exceptOk (EventService.trackBatchEvents c2Events c2Supply c2Store).1).map
        (fun r => r.results.map EventService.BatchEntry.index) = some [0, 1, 3, 4]) := by
  constructor
  · intro events supply s h1 h25
    unfold EventService.trackBatchEvents
    rw [if_neg (by omega), if_neg (by omega)]
    rcases hrb : EventService.runBatch 0 events supply s with ⟨entries, s1⟩
    have hidx : entries.map EventService.BatchEntry.index =
        List.range' 0 events.length := by
      have h := runBatch_indices events 0 supply s
      rw [hrb] at h
      exact h
    have hlen : entries.length = events.length := by
      have h1l := congrArg List.length hidx
      rw [List.length_map, List.length_range'] at h1l
      exact h1l
    have hperm := List.filter_append_perm (fun e => e.isOk) entries
    refine ⟨_, _, rfl, rfl, ?_, ?_, ?_, ?_⟩
    · have hl := hperm.length_eq
      rw [List.length_append] at hl
      simp only []
      omega
    · have hmap := hperm.map EventService.BatchEntry.index
      rw [hidx] at hmap
      rw [List.range_eq_range']
      exact hmap
    · intro e he
      exact (List.mem_filter.mp he).2
    · intro e he
      have := (List.mem_filter.mp he).2
      simpa using this
  · exact ⟨by rfl, by rfl, by rfl⟩

/-- Witness for claim C2: the accounting part applied to the concrete
five-item batch. -/
theorem c2_witness :
    (1 ≤ c2Events.length ∧ c2Events.length ≤ 25) ∧
    (∃ rep s1, EventService.trackBatchEvents c2Events c2Supply c2Store =
        (.ok rep, s1) ∧
      rep.total = c2Events.length ∧
      rep.successful + rep.failed = c2Events.length ∧
      ((rep.results ++ rep.errors).map EventService.BatchEntry.index).Perm
        (List.range c2Events.length) ∧
      (∀ e ∈ rep.results, e.isOk = true) ∧
      (∀ e ∈ rep.errors, e.isOk = false)) :=
  ⟨⟨by decide, by decide⟩,
   c2_batch_partial_success.1 c2Events c2Supply c2Store (by decide) (by decide)⟩

theorem strLtB_irrefl (l : List Char) : strLtB l l = false := by
  induction l with
  | nil => rfl
  | cons a as ih =>
    unfold strLtB
    rw [if_neg (Nat.lt_irrefl _), if_neg (Nat.lt_irrefl _)]
    exact ih

theorem strLt_irrefl (a : String) : ¬ strLt a a := by
  unfold strLt
  rw [strLtB_irrefl]
  exact fun hc => absurd hc (by decide)

/-- One event-creation input: the generated timestamp and uuid together
with the caller-supplied type, payload and request context. -/
structure EventGen where
  ts : String
  eid : String
  ty : String
  data : Option JsObj
  ua : Option String
  ip : Option String

/-- The request record handed to the event repository. -/
def genInput (sid : String) (g : EventGen) : EventRepo.EventInput :=
  { sessionId := sid, eventType := g.ty, eventData := g.data,
    userAgent := g.ua, ipAddress := g.ip }

/-- Creating a sequence of events for one session, in order. -/
def createEventsFold (sid : String) (gens : List EventGen) (s : Store) : Store :=
  gens.foldl (fun st g => (EventRepo.createEvent (genInput sid g) g.ts g.eid st).2) s

/-- The item `createEvent` writes for one creation (it does not depend
on the store). -/
def eventItemOf (sid : String) (g : EventGen) : Item :=
  (EventRepo.createEvent (genInput sid g) g.ts g.eid []).1

/-- Folding fresh event creations appends exactly the created items. -/
theorem createEventsFold_eq {sid : String} {gens : List EventGen} {s : Store}
    (hfresh : ∀ g ∈ gens, ∀ it ∈ s,
      ¬(it.PK = "SESSION#" ++ sid ∧ it.SK = .event g.ts g.eid))
    (hdist : List.Pairwise (fun a b => ¬(a.ts = b.ts ∧ a.eid = b.eid)) gens) :
    createEventsFold sid gens s = s ++ gens.map (eventItemOf sid) := by
  induction gens generalizing s with
  | nil => simp [createEventsFold]
  | cons g rest ih =>
    have hfilter : s.filter (fun it => decide (¬(it.PK = (eventItemOf sid g).PK ∧
        it.SK = (eventItemOf sid g).SK))) = s := by
      rw [List.filter_eq_self]
      intro it hit
      simp only [decide_eq_true_eq]
      exact hfresh g (List.mem_cons_self g rest) it hit
    have hstep : (EventRepo.createEvent (genInput sid g) g.ts g.eid s).2 =
        s ++ [eventItemOf sid g] := by
      show (Db.putItem (eventItemOf sid g) s).2 = s ++ [eventItemOf sid g]
      unfold Db.putItem
      rw [hfilter]
    have hfold : createEventsFold sid (g :: rest) s =
        createEventsFold sid rest (s ++ [eventItemOf sid g]) := by
      unfold createEventsFold
      rw [List.foldl_cons, hstep]
    rw [hfold, ih]
    · simp
    · intro g2 hg2 it hit
      rcases List.mem_append.mp hit with hmem | hmem
      · exact hfresh g2 (List.mem_cons_of_mem g hg2) it hmem
      · rw [List.mem_singleton] at hmem
        subst hmem
      -- the freshly created item has key (SESSION#sid, event g.ts g.eid)
        rintro ⟨hpk, hsk⟩
        have hkey : SortKey.event g.ts g.eid = SortKey.event g2.ts g2.eid := hsk
        have hts : g.ts = g2.ts := by
          injection hkey
        have heid : g.eid = g2.eid := by
          injection hkey with h1 h2
        exact (List.pairwise_cons.mp hdist).1 g2 hg2 ⟨hts, heid⟩
    · exact (List.pairwise_cons.mp hdist).2

/-- Claim C1.  Creating N events for one session at strictly increasing
timestamps (on a store with no prior events under that partition) makes
`getSessionEvents` return exactly those N events in creation order,
which is ascending timestamp order; the ordering comes only from the
ascending sort-key order of the prefix range query (the already-sorted
partition is a fixed point of the query's ordering, with no other sort
step anywhere on the path). -/
theorem c1_listBySession_sorted (sid : String) (gens : List EventGen) (s : Store)
    (hmono : List.Pairwise (fun a b => strLt a.ts b.ts) gens)
    (hclean : ∀ it ∈ s, it.PK = "SESSION#" ++ sid → it.SK.isEvent = false) :
    EventRepo.getSessionEvents sid (createEventsFold sid gens s) =
      gens.map (eventItemOf sid) ∧
    List.Pairwise (fun a b : Item =>
        strLt (a.timestamp.getD "") (b.timestamp.getD ""))
      (EventRepo.getSessionEvents sid (createEventsFold sid gens s)) := by
  have hdist : List.Pairwise (fun a b => ¬(a.ts = b.ts ∧ a.eid = b.eid)) gens := by
    refine hmono.imp ?_
    rintro a b hab ⟨hts, -⟩
    rw [hts] at hab
    exact strLt_irrefl _ hab
  have hfresh : ∀ g ∈ gens, ∀ it ∈ s,
      ¬(it.PK = "SESSION#" ++ sid ∧ it.SK = .event g.ts g.eid) := by
    rintro g hg it hit ⟨hpk, hsk⟩
    have hev := hclean it hit hpk
    rw [hsk] at hev
    exact absurd hev (by simp [SortKey.isEvent])
  have hfold := createEventsFold_eq hfresh hdist
  have hmain : EventRepo.getSessionEvents sid (createEventsFold sid gens s) =
      gens.map (eventItemOf sid) := by
    unfold EventRepo.getSessionEvents Db.queryEventsByPk
    rw [hfold, List.filter_append]
    have h1 : s.filter
        (fun it => decide (it.PK = "SESSION#" ++ sid) && it.SK.isEvent) = [] := by
      rw [List.filter_eq_nil_iff]
      intro it hit hc
      rw [Bool.and_eq_true, decide_eq_true_eq] at hc
      have hev := hclean it hit hc.1
      rw [hev] at hc
      exact absurd hc.2 (by decide)
    have h2 : (gens.map (eventItemOf sid)).filter
        (fun it => decide (it.PK = "SESSION#" ++ sid) && it.SK.isEvent) =
        gens.map (eventItemOf sid) := by
      rw [List.filter_eq_self]
      intro it hit
      rcases List.mem_map.mp hit with ⟨g, hg, rfl⟩
      show (decide ((eventItemOf sid g).PK = "SESSION#" ++ sid) &&
        (eventItemOf sid g).SK.isEvent) = true
      rw [Bool.and_eq_true]
      exact ⟨by rw [decide_eq_true_eq]; rfl, rfl⟩
    rw [h1, h2, List.nil_append]
    apply List.Sorted.insertionSort_eq
    show List.Pairwise Db.itemLe (gens.map (eventItemOf sid))
    rw [List.pairwise_map]
    refine hmono.imp ?_
    intro a b hab
    exact Or.inl hab
  refine ⟨hmain, ?_⟩
  rw [hmain, List.pairwise_map]
  refine hmono.imp ?_
  intro a b hab
  exact hab

/-- Two concrete event creations at strictly increasing ISO
timestamps. -/
def c1Gens : List EventGen :=
  [{ ts := "2024-01-01T00:00:00.000Z", eid := "e1", ty := "landing",
     data := none, ua := none, ip := none },
   { ts := "2024-01-01T00:00:01.000Z", eid := "e2", ty := "click",
     data := none, ua := none, ip := none }]

/-- Witness for claim C1: the ordering theorem applied to two concrete
creations on the empty store. -/
theorem c1_witness :
    (List.Pairwise (fun a b => strLt a.ts b.ts) c1Gens ∧
      ∀ it ∈ ([] : Store), it.PK = "SESSION#" ++ "w" → it.SK.isEvent = false) ∧
    (EventRepo.getSessionEvents "w" (createEventsFold "w" c1Gens []) =
        c1Gens.map (eventItemOf "w") ∧
      List.Pairwise (fun a b : Item =>
          strLt (a.timestamp.getD "") (b.timestamp.getD ""))
        (EventRepo.getSessionEvents "w" (createEventsFold "w" c1Gens []))) :=
  ⟨⟨by decide, by decide⟩,
   c1_listBySession_sorted "w" c1Gens [] (by decide) (by decide)⟩
